import Mathlib

/-
Verification of the quality-extraction, sanitizing, progress-tracking and
download-orchestration logic of src/app.py (a small YouTube download UI).
Python dictionaries coming from the external extraction library are embedded
as structures whose fields are Option-valued or use the PyField sum type,
so that absent keys and non-integer values are representable.
-/

/-- Characters removed by sanitize_filename, from the regex character class
in src/app.py line 11. -/
def forbiddenFilenameChars : List Char := ['<', '>', ':', '"', '/', '\\', '|', '?', '*']

/-- Embedding of sanitize_filename (src/app.py lines 9-11): re.sub replaces
every occurrence of a forbidden character by an underscore, character by
character. -/
def sanitize_filename (s : String) : String :=
  String.mk (s.data.map (fun c => if c ∈ forbiddenFilenameChars then '_' else c))

/-- Test for the two-character escape class of the regex in src/app.py
line 18: the class contains the bytes 0x40-0x5A and 0x5C-0x5F. -/
def isAnsiTwoChar (c : Char) : Bool :=
  (0x40 ≤ c.toNat && c.toNat ≤ 0x5A) || (0x5C ≤ c.toNat && c.toNat ≤ 0x5F)

/-- CSI parameter bytes 0x30-0x3F of the regex in src/app.py line 18. -/
def isCsiParam (c : Char) : Bool := 0x30 ≤ c.toNat && c.toNat ≤ 0x3F

/-- CSI intermediate bytes 0x20-0x2F of the regex in src/app.py line 18. -/
def isCsiIntermediate (c : Char) : Bool := 0x20 ≤ c.toNat && c.toNat ≤ 0x2F

/-- CSI final bytes 0x40-0x7E of the regex in src/app.py line 18. -/
def isCsiFinal (c : Char) : Bool := 0x40 ≤ c.toNat && c.toNat ≤ 0x7E

/-- Attempts to match what follows an escape character against the body of
the ANSI regex of src/app.py line 18: either a single character of the
two-character class, or a full CSI sequence (a bracket, then parameter
bytes, then intermediate bytes, then one final byte). Returns the remaining
input on success. The character classes are disjoint and ordered, so the
greedy match performed here coincides with the regex engine's. -/
def matchAnsi : List Char → Option (List Char)
  | [] => none
  | c :: rest =>
    if isAnsiTwoChar c then some rest
    else if c = '[' then
      match (rest.dropWhile isCsiParam).dropWhile isCsiIntermediate with
      | [] => none
      | f :: r3 => if isCsiFinal f then some r3 else none
    else none

/-- One left-to-right pass of re.sub with the ANSI regex: at an escape
character, try to match a full escape sequence and drop it; on failure, or
at any other character, keep the character and continue with the next one.
The fuel argument only bounds the recursion; every step consumes at least
one character, so starting the fuel at the length of the list never
exhausts it. -/
def stripAnsiFuel : Nat → List Char → List Char
  | 0, l => l
  | _ + 1, [] => []
  | fuel + 1, c :: rest =>
    if c = '\x1B' then
      match matchAnsi rest with
      | some rest2 => stripAnsiFuel fuel rest2
      | none => c :: stripAnsiFuel fuel rest
    else c :: stripAnsiFuel fuel rest

/-- Input of sanitize_for_display: the Python value may be a string or any
non-string value (the tag distinguishes different non-string values). -/
inductive DisplayInput where
  | str (s : String)
  | nonStr (tag : Nat)
deriving DecidableEq

/-- Embedding of sanitize_for_display (src/app.py lines 14-19): a
non-string input yields the empty string, a string input has its ANSI
escape sequences removed. -/
def sanitize_for_display : DisplayInput → String
  | DisplayInput.str s => String.mk (stripAnsiFuel s.data.length s.data)
  | DisplayInput.nonStr _ => ""

/-- A value stored under a key of a format dictionary: the key may be
absent, hold a string, hold an integer, or hold a value of any other type
(the tag distinguishes different such values). -/
inductive PyField where
  | absent
  | str (s : String)
  | int (n : Int)
  | other (tag : Nat)
deriving DecidableEq

/-- Whether the field holds an integer, the embedding of isinstance(x, int)
on the result of dict.get. -/
def PyField.isInt : PyField → Bool
  | PyField.int _ => true
  | _ => false

/-- The integer held by the field, when it holds one. -/
def PyField.getInt : PyField → Option Int
  | PyField.int n => some n
  | _ => none

/-- One entry of the formats list, with the three keys consumed by
extract_available_qualities. -/
structure FormatEntry where
  vcodec : PyField
  ext : PyField
  height : PyField
deriving DecidableEq

/-- The filter of src/app.py line 39: vcodec is not the string none, ext is
the string mp4, and height is integer-valued. A missing vcodec or ext key
compares like any value different from the tested string. -/
def acceptFormat (f : FormatEntry) : Bool :=
  decide (f.vcodec ≠ PyField.str ("none")) && decide (f.ext = PyField.str ("mp4")) && f.height.isInt

/-- The heights added to the qualities set in src/app.py line 40, in
iteration order (an accepted entry always has an integer height). -/
def acceptedHeights (formats : List FormatEntry) : List Int :=
  formats.filterMap (fun f => if acceptFormat f then f.height.getInt else none)

/-- The distinct accepted heights sorted in descending order: the embedding
of sorted(list(qualities), reverse=True) on the set built in src/app.py
lines 37-45. -/
def sortedQualityHeights (formats : List FormatEntry) : List Int :=
  (((acceptedHeights formats).dedup).insertionSort (fun a b => a ≤ b)).reverse

/-- The metadata dictionary as consumed by extract_available_qualities: the
formats key may be absent. -/
structure InfoDict where
  formats : Option (List FormatEntry)

/-- Embedding of extract_available_qualities (src/app.py lines 32-46):
collect the distinct heights of accepted entries; if there are none return
the fixed fallback, else sort descending and append a p to each height. -/
def extract_available_qualities (d : InfoDict) : List String :=
  if sortedQualityHeights (d.formats.getD []) = [] then ["720p", "360p"]
  else (sortedQualityHeights (d.formats.getD [])).map (fun h => toString h ++ "p")

/-- The mutable progress dictionary of src/app.py line 69. -/
structure ProgressState where
  step : Nat
  total_steps : Nat
deriving DecidableEq

/-- A stage event dictionary delivered by the external library to the
progress hook: a status string, and the three optional display strings
read with dict.get defaults in src/app.py lines 52-54. -/
structure HookEvent where
  status : String
  percent_str : Option String
  speed_str : Option String
  eta_str : Option String
deriving DecidableEq

/-- Embedding of progress_hook (src/app.py lines 49-60): returns the
progress state after the event together with the status label published to
the status box, when one is published. -/
def progress_hook (d : HookEvent) (ps : ProgressState) : ProgressState × Option String :=
  if d.status = "downloading" then
    let percent := sanitize_for_display (DisplayInput.str (d.percent_str.getD ("0.0%")))
    let speed := sanitize_for_display (DisplayInput.str (d.speed_str.getD ("N/A")))
    let eta := sanitize_for_display (DisplayInput.str (d.eta_str.getD ("N/A")))
    let stepInfo := "Step " ++ toString ps.step ++ "/" ++ toString ps.total_steps ++ ":"
    (ps, some (stepInfo ++ " Downloading... " ++ percent ++ " (" ++ speed ++ " - ETA: " ++ eta ++ ")"))
  else if d.status = "finished" then
    let ps2 : ProgressState := { ps with step := ps.step + 1 }
    let stepInfo := "Step " ++ toString (ps2.step - 1) ++ "/" ++ toString ps2.total_steps ++ ":"
    (ps2, some (stepInfo ++ " Download finished. Starting conversion..."))
  else (ps, none)

/-- The progress state reached after a sequence of events is delivered to
the hook. -/
def runProgressHook (events : List HookEvent) (ps : ProgressState) : ProgressState :=
  events.foldl (fun s d => (progress_hook d s).1) ps

/-- The audio extraction post-processing directive built in src/app.py
line 74. -/
structure AudioPostprocessor where
  key : String
  preferredcodec : String
  preferredquality : String
deriving DecidableEq

/-- The download plan computed by handle_download before invoking the
external library: the format specifier string, the post-processing
directives, and the final total_steps value of the progress state. -/
structure DownloadPlan where
  format_string : String
  postprocessors : List AudioPostprocessor
  total_steps : Nat
deriving DecidableEq

/-- The Python slice quality_setting[:-1] of src/app.py line 76: the string
without its last character (the empty string stays empty). -/
def pyDropLastChar (s : String) : String := String.mk s.data.dropLast

/-- Embedding of the plan construction in handle_download (src/app.py
lines 69-80): mp3 mode requests best audio with an MP3 extraction
directive at the requested bitrate and leaves total_steps at 1; any other
mode slices the trailing character off the quality string, builds the
merge-with-fallback MP4 specifier, and sets total_steps to 2 exactly when
the specifier contains a plus character. -/
def buildDownloadPlan (format_type : String) (quality_setting : String) : DownloadPlan :=
  if format_type = "mp3" then
    { format_string := "bestaudio/best",
      postprocessors := [{ key := "FFmpegExtractAudio", preferredcodec := "mp3",
                           preferredquality := quality_setting }],
      total_steps := 1 }
  else
    let height := pyDropLastChar quality_setting
    let fs := "bestvideo[ext=mp4][height<=" ++ height ++ "]+bestaudio[ext=m4a]/best[ext=mp4][height<=" ++ height ++ "]"
    { format_string := fs,
      postprocessors := [],
      total_steps := if '+' ∈ fs.data then 2 else 1 }

/-- One entry of the requested_downloads list of the external call's
result structure; its filepath key may be absent. -/
structure RequestedDownload where
  filepath : Option String
deriving DecidableEq

/-- The result structure returned by the external download call; the
requested_downloads key may be absent, in which case src/app.py line 100
substitutes a one-element list holding an empty dictionary. -/
structure DownloadResult where
  requested_downloads : Option (List RequestedDownload)
deriving DecidableEq

/-- Outcome of the file-resolution step of handle_download. raisedError
stands for the IndexError raised by indexing an empty list, which the
top-level handler reports as an unexpected error. -/
inductive DownloadOutcome where
  | downloadFailed
  | exposed (filepath : String) (mime : String)
  | raisedError
deriving DecidableEq

/-- Embedding of src/app.py lines 100-119: take the first entry of
requested_downloads (defaulting to a single empty dictionary when the key
is absent); a falsy filepath (absent key or empty string) or a path not
present on disk reports Download Failed and exposes nothing; otherwise the
file is exposed with the MIME type chosen by the format type. -/
def resolveDownload (res : DownloadResult) (onDisk : String → Bool) (format_type : String) : DownloadOutcome :=
  match res.requested_downloads.getD [{ filepath := none }] with
  | [] => DownloadOutcome.raisedError
  | e :: _ =>
    match e.filepath with
    | none => DownloadOutcome.downloadFailed
    | some p =>
      if p = "" then DownloadOutcome.downloadFailed
      else if onDisk p then
        DownloadOutcome.exposed p (if format_type = "mp3" then "audio/mpeg" else "video/mp4")
      else DownloadOutcome.downloadFailed

/-- A formats list with mixed codecs and containers carrying the heights
1080, 720, 720 and 480 on its accepted entries: an audio-only mp4 entry, a
webm entry, an entry without height and an entry with a string height are
interleaved with the accepted ones. -/
def mixedFormats : List FormatEntry :=
  [{ vcodec := PyField.str ("avc1"), ext := PyField.str ("mp4"), height := PyField.int 1080 },
   { vcodec := PyField.str ("none"), ext := PyField.str ("mp4"), height := PyField.int 1080 },
   { vcodec := PyField.str ("vp9"), ext := PyField.str ("webm"), height := PyField.int 1440 },
   { vcodec := PyField.str ("avc1"), ext := PyField.str ("mp4"), height := PyField.int 720 },
   { vcodec := PyField.str ("avc1"), ext := PyField.str ("mp4"), height := PyField.int 720 },
   { vcodec := PyField.absent, ext := PyField.str ("mp4"), height := PyField.str ("480") },
   { vcodec := PyField.str ("avc1"), ext := PyField.str ("mp4"), height := PyField.absent },
   { vcodec := PyField.str ("avc1"), ext := PyField.str ("mp4"), height := PyField.int 480 }]

/-- A formats list every entry of which is rejected by the filter: missing
height, string height, float-like height, audio-only codec, wrong
container. -/
def malformedFormats : List FormatEntry :=
  [{ vcodec := PyField.str ("avc1"), ext := PyField.str ("mp4"), height := PyField.absent },
   { vcodec := PyField.str ("avc1"), ext := PyField.str ("mp4"), height := PyField.str ("720") },
   { vcodec := PyField.absent, ext := PyField.str ("mp4"), height := PyField.other 0 },
   { vcodec := PyField.str ("none"), ext := PyField.str ("mp4"), height := PyField.int 360 },
   { vcodec := PyField.str ("vp9"), ext := PyField.str ("webm"), height := PyField.int 1080 }]

/-- A stage event with the finished status and no display strings. -/
def finishedEvent : HookEvent :=
  { status := "finished", percent_str := none, speed_str := none, eta_str := none }

/-- A stage event with the downloading status and concrete display
strings. -/
def downloadingEvent : HookEvent :=
  { status := "downloading", percent_str := some ("45.0%"), speed_str := some ("1.2MiB/s"),
    eta_str := some ("00:10") }

/-- A field holds an integer exactly when it is an int constructor. -/
theorem PyField.isInt_iff (p : PyField) : p.isInt = true ↔ ∃ n : Int, p = PyField.int n := by
  cases p <;> simp [PyField.isInt]

/-- getInt returns an integer exactly on the int constructor. -/
theorem PyField.getInt_eq_some_iff (p : PyField) (n : Int) :
    p.getInt = some n ↔ p = PyField.int n := by
  cases p <;> simp [PyField.getInt]

/-- The boolean filter of line 39 agrees with its propositional reading. -/
theorem acceptFormat_true_iff (f : FormatEntry) :
    acceptFormat f = true ↔
      (f.vcodec ≠ PyField.str ("none") ∧ f.ext = PyField.str ("mp4") ∧
        ∃ n : Int, f.height = PyField.int n) := by
  simp [acceptFormat, Bool.and_eq_true, decide_eq_true_eq, PyField.isInt_iff, and_assoc]

/-- A height is collected exactly when some entry of the list is accepted
and carries it. -/
theorem mem_acceptedHeights (fs : List FormatEntry) (h : Int) :
    h ∈ acceptedHeights fs ↔ ∃ f ∈ fs, acceptFormat f = true ∧ f.height = PyField.int h := by
  unfold acceptedHeights
  rw [List.mem_filterMap]
  constructor
  · rintro ⟨f, hf, he⟩
    by_cases ha : acceptFormat f = true
    · rw [if_pos ha] at he
      exact ⟨f, hf, ha, (PyField.getInt_eq_some_iff _ _).1 he⟩
    · rw [if_neg ha] at he
      cases he
  · rintro ⟨f, hf, ha, hh⟩
    refine ⟨f, hf, ?_⟩
    rw [if_pos ha, hh]
    rfl

/-- Sorting and deduplicating does not change which heights appear. -/
theorem mem_sortedQualityHeights (fs : List FormatEntry) (h : Int) :
    h ∈ sortedQualityHeights fs ↔ h ∈ acceptedHeights fs := by
  unfold sortedQualityHeights
  rw [List.mem_reverse, (List.perm_insertionSort _ _).mem_iff, List.mem_dedup]

/-- The collected heights come out sorted in descending order. -/
theorem sortedQualityHeights_sorted (fs : List FormatEntry) :
    List.Sorted (fun a b : Int => b ≤ a) (sortedQualityHeights fs) := by
  unfold sortedQualityHeights
  exact List.pairwise_reverse.mpr (List.sorted_insertionSort _ _)

/-- The collected heights come out without duplicates. -/
theorem sortedQualityHeights_nodup (fs : List FormatEntry) :
    (sortedQualityHeights fs).Nodup := by
  unfold sortedQualityHeights
  rw [List.nodup_reverse]
  exact ((List.perm_insertionSort _ _).nodup_iff).2 (List.nodup_dedup _)

/-- The sorted height list is empty exactly when no height was collected. -/
theorem sortedQualityHeights_eq_nil_iff (fs : List FormatEntry) :
    sortedQualityHeights fs = [] ↔ acceptedHeights fs = [] := by
  simp only [List.eq_nil_iff_forall_not_mem, mem_sortedQualityHeights]

/-- C1: the Quality Extractor accepts a format entry exactly when its
vcodec is not the none sentinel, its ext is mp4 and its height is an
integer; the heights it returns are exactly the accepted ones, without
duplicates and sorted descending, each rendered as the height followed by
a p; on the mixed-codec mixed-container list with accepted heights 1080,
720, 720 and 480 it returns exactly 1080p, 720p, 480p. -/
theorem C1_quality_extractor :
    (∀ f : FormatEntry, acceptFormat f = true ↔
        (f.vcodec ≠ PyField.str ("none") ∧ f.ext = PyField.str ("mp4") ∧
          ∃ n : Int, f.height = PyField.int n))
    ∧ (∀ (fs : List FormatEntry) (h : Int),
        h ∈ sortedQualityHeights fs ↔ ∃ f ∈ fs, acceptFormat f = true ∧ f.height = PyField.int h)
    ∧ (∀ fs : List FormatEntry,
        List.Sorted (fun a b : Int => b ≤ a) (sortedQualityHeights fs)
          ∧ (sortedQualityHeights fs).Nodup)
    ∧ (∀ d : InfoDict, sortedQualityHeights (d.formats.getD []) ≠ [] →
        extract_available_qualities d =
          (sortedQualityHeights (d.formats.getD [])).map (fun h => toString h ++ "p"))
    ∧ extract_available_qualities { formats := some mixedFormats } = ["1080p", "720p", "480p"] := by
  refine ⟨acceptFormat_true_iff, ?_, ?_, ?_, by decide⟩
  · intro fs h
    rw [mem_sortedQualityHeights, mem_acceptedHeights]
  · intro fs
    exact ⟨sortedQualityHeights_sorted fs, sortedQualityHeights_nodup fs⟩
  · intro d hq
    unfold extract_available_qualities
    rw [if_neg hq]

/-- Witness for C1 on the mixed formats list, where the height list is
nonempty. -/
theorem C1_witness :
    sortedQualityHeights ((InfoDict.mk (some mixedFormats)).formats.getD []) ≠ []
    ∧ extract_available_qualities (InfoDict.mk (some mixedFormats)) =
        (sortedQualityHeights ((InfoDict.mk (some mixedFormats)).formats.getD [])).map
          (fun h => toString h ++ "p") :=
  ⟨by decide, C1_quality_extractor.2.2.2.1 (InfoDict.mk (some mixedFormats)) (by decide)⟩

/-- C4: a missing formats key, an empty formats list, or a formats list in
which every entry is rejected all yield the fixed fallback, and a rejected
entry is simply skipped: removing it does not change the result. -/
theorem C4_fallback_and_skipping :
    extract_available_qualities { formats := none } = ["720p", "360p"]
    ∧ extract_available_qualities { formats := some [] } = ["720p", "360p"]
    ∧ (∀ fs : List FormatEntry, (∀ f ∈ fs, acceptFormat f = false) →
        extract_available_qualities { formats := some fs } = ["720p", "360p"])
    ∧ (∀ (f : FormatEntry) (fs : List FormatEntry), acceptFormat f = false →
        extract_available_qualities { formats := some (f :: fs) } =
          extract_available_qualities { formats := some fs }) := by
  refine ⟨by decide, by decide, ?_, ?_⟩
  · intro fs hall
    have hempty : acceptedHeights fs = [] := by
      rw [acceptedHeights, List.filterMap_eq_nil_iff]
      intro f hf
      simp [hall f hf]
    have hq : sortedQualityHeights fs = [] := (sortedQualityHeights_eq_nil_iff fs).2 hempty
    simp [extract_available_qualities, hq]
  · intro f fs hf
    have hacc : acceptedHeights (f :: fs) = acceptedHeights fs := by
      unfold acceptedHeights
      rw [List.filterMap_cons]
      simp [hf]
    have hsame : sortedQualityHeights (f :: fs) = sortedQualityHeights fs := by
      unfold sortedQualityHeights
      rw [hacc]
    simp [extract_available_qualities, hsame]

/-- Witness for C4 on a list made only of malformed or rejected entries. -/
theorem C4_witness :
    extract_available_qualities { formats := some malformedFormats } = ["720p", "360p"] :=
  C4_fallback_and_skipping.2.2.1 malformedFormats (by decide)

/-- C10: the Quality Extractor never returns an empty list, so the quality
selection offered to the user is never empty. -/
theorem C10_quality_list_nonempty : ∀ d : InfoDict, extract_available_qualities d ≠ [] := by
  intro d
  unfold extract_available_qualities
  by_cases hq : sortedQualityHeights (d.formats.getD []) = []
  · rw [if_pos hq]
    simp
  · rw [if_neg hq]
    simpa [List.map_eq_nil_iff] using hq

/-- C7: the Filename Sanitizer replaces every forbidden character by an
underscore: its output contains none of the nine forbidden characters,
keeps the length of the input, and equals the input with each character
mapped through the replacement. -/
theorem C7_sanitize_filename_props :
    ∀ s : String,
      (∀ c ∈ (sanitize_filename s).data, c ∉ forbiddenFilenameChars)
      ∧ (sanitize_filename s).length = s.length
      ∧ (sanitize_filename s).data =
          s.data.map (fun c => if c ∈ forbiddenFilenameChars then '_' else c) := by
  intro s
  refine ⟨?_, ?_, rfl⟩
  · intro c hc
    have hc2 : c ∈ s.data.map (fun c => if c ∈ forbiddenFilenameChars then '_' else c) := hc
    rw [List.mem_map] at hc2
    obtain ⟨a, _, ha⟩ := hc2
    by_cases hf : a ∈ forbiddenFilenameChars
    · rw [if_pos hf] at ha
      rw [← ha]
      decide
    · rw [if_neg hf] at ha
      rw [← ha]
      exact hf
  · show (s.data.map (fun c => if c ∈ forbiddenFilenameChars then '_' else c)).length = s.data.length
    simp

/-- Witness for C7: on a concrete name the underscore appears in the
output, is itself not forbidden, and the length is preserved. -/
theorem C7_witness :
    ('_' ∈ (sanitize_filename ("a<b|c")).data)
    ∧ (('_' ∈ forbiddenFilenameChars) = False)
    ∧ (sanitize_filename ("a<b|c")).length = ("a<b|c" : String).length :=
  ⟨by decide, eq_false ((C7_sanitize_filename_props ("a<b|c")).1 '_' (by decide)),
    (C7_sanitize_filename_props ("a<b|c")).2.1⟩

/-- Stripping is the identity on a list that contains no escape character,
for any sufficient fuel. -/
theorem stripAnsiFuel_no_escape (fuel : Nat) (l : List Char) (hl : l.length ≤ fuel)
    (h : ∀ c ∈ l, c ≠ '\x1B') : stripAnsiFuel fuel l = l := by
  induction fuel generalizing l with
  | zero => rfl
  | succ n ih =>
    cases l with
    | nil => rfl
    | cons c rest =>
      have hc : c ≠ '\x1B' := h c (List.mem_cons_self c rest)
      have hlen : rest.length ≤ n := by
        simp only [List.length_cons] at hl
        omega
      simp only [stripAnsiFuel]
      rw [if_neg hc]
      rw [ih rest hlen (fun x hx => h x (List.mem_cons_of_mem c hx))]

/-- C8: the Display Sanitizer returns the empty string on every non-string
input; it returns a string without escape characters unchanged; it removes
a CSI colour sequence and a two-character escape form from concrete
strings. -/
theorem C8_sanitize_for_display_props :
    (∀ tag : Nat, sanitize_for_display (DisplayInput.nonStr tag) = "")
    ∧ (∀ s : String, (∀ c ∈ s.data, c ≠ '\x1B') → sanitize_for_display (DisplayInput.str s) = s)
    ∧ sanitize_for_display (DisplayInput.str ("\x1B[31mDone\x1B[0m")) = "Done"
    ∧ sanitize_for_display (DisplayInput.str ("a\x1BMb")) = "ab" := by
  refine ⟨fun _ => rfl, ?_, by decide, by decide⟩
  intro s h
  show String.mk (stripAnsiFuel s.data.length s.data) = s
  rw [stripAnsiFuel_no_escape s.data.length s.data le_rfl h]

/-- Witness for C8 on a concrete escape-free status string. -/
theorem C8_witness :
    sanitize_for_display (DisplayInput.str ("45.0% at 1.2MiB per second")) =
      "45.0% at 1.2MiB per second" :=
  C8_sanitize_for_display_props.2.1 ("45.0% at 1.2MiB per second") (by decide)

/-- Removing the final character of a string obtained by appending a
single character is the original string. -/
theorem pyDropLastChar_append_p (s : String) : pyDropLastChar (s ++ "p") = s := by
  apply String.ext
  show ((s ++ "p").data).dropLast = s.data
  rw [String.data_append]
  exact List.dropLast_concat

/-- The mp4 format specifier always contains the plus character that joins
the video stream with the audio stream. -/
theorem plus_mem_mp4_format (t : String) :
    '+' ∈ ("bestvideo[ext=mp4][height<=" ++ t ++ "]+bestaudio[ext=m4a]/best[ext=mp4][height<=" ++ t ++ "]").data := by
  simp only [String.data_append]
  exact List.mem_append_left _ (List.mem_append_left _ (List.mem_append_right _ (by decide)))

/-- C2: for a quality string of the form height followed by p, mp4 mode
builds the specifier that requests the best MP4 video at or below that
height merged with the best m4a audio, with a fallback to the best
pre-merged MP4 at or below that height; the resulting total_steps is 2;
and in mp4 mode total_steps is 2 exactly when the specifier contains the
plus character that indicates a separate video and audio merge. -/
theorem C2_mp4_plan :
    ∀ h : Nat,
      (buildDownloadPlan ("mp4") (toString h ++ "p")).format_string =
        "bestvideo[ext=mp4][height<=" ++ toString h ++
          "]+bestaudio[ext=m4a]/best[ext=mp4][height<=" ++ toString h ++ "]"
      ∧ (buildDownloadPlan ("mp4") (toString h ++ "p")).total_steps = 2
      ∧ (∀ q : String, (buildDownloadPlan ("mp4") q).total_steps = 2 ↔
          '+' ∈ (buildDownloadPlan ("mp4") q).format_string.data) := by
  intro h
  refine ⟨?_, ?_, ?_⟩
  · show (buildDownloadPlan ("mp4") (toString h ++ "p")).format_string = _
    unfold buildDownloadPlan
    rw [if_neg (by decide : ¬("mp4" : String) = "mp3")]
    simp only [pyDropLastChar_append_p]
  · unfold buildDownloadPlan
    rw [if_neg (by decide : ¬("mp4" : String) = "mp3")]
    simp only [pyDropLastChar_append_p]
    show (if '+' ∈ _ then 2 else 1) = 2
    rw [if_pos (plus_mem_mp4_format (toString h))]
  · intro q
    unfold buildDownloadPlan
    rw [if_neg (by decide : ¬("mp4" : String) = "mp3")]
    show (if '+' ∈ _ then 2 else 1) = 2 ↔ _
    split_ifs with hp
    · simp [hp]
    · exact absurd (plus_mem_mp4_format (pyDropLastChar q)) hp

/-- C9: in mp3 mode, for every bitrate of the fixed set, the plan requests
the best available audio with a single MP3 extraction directive whose
preferred quality is the requested bitrate, and total_steps stays 1. -/
theorem C9_mp3_plan :
    ∀ q : String, q ∈ (["128", "192", "256", "320"] : List String) →
      (buildDownloadPlan ("mp3") q).format_string = "bestaudio/best"
      ∧ (buildDownloadPlan ("mp3") q).postprocessors =
          [{ key := "FFmpegExtractAudio", preferredcodec := "mp3", preferredquality := q }]
      ∧ (buildDownloadPlan ("mp3") q).total_steps = 1 := by
  intro q _
  exact ⟨rfl, rfl, rfl⟩

/-- Witness for C9 at the bitrate 256. -/
theorem C9_witness :
    (("256" : String) ∈ (["128", "192", "256", "320"] : List String))
    ∧ (buildDownloadPlan ("mp3") ("256")).format_string = "bestaudio/best"
    ∧ (buildDownloadPlan ("mp3") ("256")).postprocessors =
        [{ key := "FFmpegExtractAudio", preferredcodec := "mp3", preferredquality := "256" }]
    ∧ (buildDownloadPlan ("mp3") ("256")).total_steps = 1 :=
  ⟨by decide, C9_mp3_plan ("256") (by decide)⟩

/-- The state component of the hook: the step grows by one exactly on a
finished event and nothing else changes. -/
theorem progress_hook_state (d : HookEvent) (ps : ProgressState) :
    (progress_hook d ps).1 =
      if d.status = "finished" then { ps with step := ps.step + 1 } else ps := by
  unfold progress_hook
  by_cases h1 : d.status = "downloading"
  · rw [if_pos h1, if_neg (by rw [h1]; decide)]
  · rw [if_neg h1]
    by_cases h2 : d.status = "finished"
    · rw [if_pos h2, if_pos h2]
    · rw [if_neg h2, if_neg h2]

/-- Running the hook over a sequence of events adds the number of finished
events to the step and leaves total_steps unchanged. -/
theorem runProgressHook_step_count (events : List HookEvent) (ps : ProgressState) :
    (runProgressHook events ps).step = ps.step + events.countP (fun d => d.status == "finished")
    ∧ (runProgressHook events ps).total_steps = ps.total_steps := by
  induction events generalizing ps with
  | nil => simp [runProgressHook]
  | cons d evs ih =>
    have hfold : runProgressHook (d :: evs) ps = runProgressHook evs ((progress_hook d ps).1) := rfl
    rw [hfold, List.countP_cons, progress_hook_state]
    by_cases h : d.status = "finished"
    · rw [if_pos h]
      rcases ih { ps with step := ps.step + 1 } with ⟨ih1, ih2⟩
      constructor
      · rw [ih1]
        simp [h]
        try omega
      · rw [ih2]
    · rw [if_neg h]
      rcases ih ps with ⟨ih1, ih2⟩
      constructor
      · rw [ih1]
        simp [h]
        try omega
      · rw [ih2]

/-- C3 counterexample: from the fresh state of an mp3 download, two
finished events drive step to 3, which exceeds total_steps plus one. -/
theorem C3_counterexample :
    (runProgressHook [finishedEvent, finishedEvent] { step := 1, total_steps := 1 }).step = 3
    ∧ ((runProgressHook [finishedEvent, finishedEvent] { step := 1, total_steps := 1 }).step ≤
        (runProgressHook [finishedEvent, finishedEvent]
          { step := 1, total_steps := 1 }).total_steps + 1) = False :=
  ⟨by decide, eq_false (by decide)⟩

/-- C3 amended: the step is unchanged by any event other than finished,
grows by exactly one on each finished event, equals one plus the number of
finished events delivered, and therefore stays at most total_steps plus
one whenever at most total_steps finished events are delivered. -/
theorem C3_amended_step_behavior :
    (∀ (d : HookEvent) (ps : ProgressState), d.status ≠ "finished" → (progress_hook d ps).1 = ps)
    ∧ (∀ (d : HookEvent) (ps : ProgressState), d.status = "finished" →
        (progress_hook d ps).1 = { ps with step := ps.step + 1 })
    ∧ (∀ (events : List HookEvent) (ps : ProgressState),
        (runProgressHook events ps).step = ps.step + events.countP (fun d => d.status == "finished"))
    ∧ (∀ (events : List HookEvent) (t : Nat),
        events.countP (fun d => d.status == "finished") ≤ t →
        (runProgressHook events { step := 1, total_steps := t }).step ≤ t + 1) := by
  refine ⟨?_, ?_, ?_, ?_⟩
  · intro d ps h
    rw [progress_hook_state, if_neg h]
  · intro d ps h
    rw [progress_hook_state, if_pos h]
  · intro evs ps
    exact (runProgressHook_step_count evs ps).1
  · intro evs t hle
    have h2 : (runProgressHook evs { step := 1, total_steps := t }).step =
        1 + evs.countP (fun d => d.status == "finished") :=
      (runProgressHook_step_count evs { step := 1, total_steps := t }).1
    rw [h2]
    omega

/-- Witness for the amended C3: one finished event with total_steps 2
keeps the step within the bound. -/
theorem C3_witness :
    ([finishedEvent].countP (fun d => d.status == "finished") ≤ 2)
    ∧ (runProgressHook [finishedEvent] { step := 1, total_steps := 2 }).step ≤ 2 + 1 :=
  ⟨by decide, C3_amended_step_behavior.2.2.2 [finishedEvent] 2 (by decide)⟩

/-- C6: a finished event increments the step by exactly one and publishes
the label that names the prior step number over total_steps as completed
and announces that conversion starts; concretely, from step 1 of 2 the
step becomes 2 and the label reads Step 1/2 followed by the completion
text. -/
theorem C6_finished_increment_and_label :
    (∀ (d : HookEvent) (ps : ProgressState), d.status = "finished" →
      (progress_hook d ps).1.step = ps.step + 1
      ∧ (progress_hook d ps).2 =
          some (("Step " ++ toString ps.step ++ "/" ++ toString ps.total_steps ++ ":") ++
            " Download finished. Starting conversion..."))
    ∧ progress_hook finishedEvent { step := 1, total_steps := 2 } =
        ({ step := 2, total_steps := 2 },
          some ("Step 1/2: Download finished. Starting conversion...")) := by
  constructor
  · intro d ps h
    have hnd : ¬ d.status = "downloading" := by rw [h]; decide
    unfold progress_hook
    rw [if_neg hnd, if_pos h]
    refine ⟨rfl, ?_⟩
    simp [Nat.add_sub_cancel]
  · decide

/-- Witness for C6 at a concrete finished event from step 1 of 2. -/
theorem C6_witness :
    (progress_hook finishedEvent { step := 1, total_steps := 2 }).1.step = 1 + 1
    ∧ (progress_hook finishedEvent { step := 1, total_steps := 2 }).2 =
        some (("Step " ++ toString (1 : Nat) ++ "/" ++ toString (2 : Nat) ++ ":") ++
          " Download finished. Starting conversion...") :=
  C6_finished_increment_and_label.1 finishedEvent { step := 1, total_steps := 2 } rfl

/-- C5: when the first entry of the result structure (after the default
substitution for a missing key) has a falsy filepath or a path that is not
on disk, the orchestrator reports Download Failed and exposes no file. -/
theorem C5_failed_resolution :
    ∀ (res : DownloadResult) (onDisk : String → Bool) (ft : String)
      (e : RequestedDownload) (rest : List RequestedDownload),
      res.requested_downloads.getD [{ filepath := none }] = e :: rest →
      (e.filepath = none ∨ e.filepath = some "" ∨ (∃ p, e.filepath = some p ∧ onDisk p = false)) →
      resolveDownload res onDisk ft = DownloadOutcome.downloadFailed
      ∧ ((∃ p m, resolveDownload res onDisk ft = DownloadOutcome.exposed p m) = False) := by
  intro res onDisk ft e rest hlist hbad
  have hmain : resolveDownload res onDisk ft = DownloadOutcome.downloadFailed := by
    rcases hbad with h | h | ⟨p, hp, hdisk⟩
    · simp [resolveDownload, hlist, h]
    · simp [resolveDownload, hlist, h]
    · simp [resolveDownload, hlist, hp, hdisk]
  refine ⟨hmain, eq_false ?_⟩
  rintro ⟨p, m, hpm⟩
  rw [hmain] at hpm
  exact DownloadOutcome.noConfusion hpm

/-- Witness for C5: a result whose only entry has no filepath fails. -/
theorem C5_witness :
    resolveDownload { requested_downloads := some [{ filepath := none }] } (fun _ => false)
      ("mp4") = DownloadOutcome.downloadFailed :=
  (C5_failed_resolution { requested_downloads := some [{ filepath := none }] } (fun _ => false)
    ("mp4") { filepath := none } [] rfl (Or.inl rfl)).1
